import Mathlib

/-!
Shallow embedding of the GlavnaQt core algorithms:

* `glavnaqt/ui/font_scaling.py` — `calculate_scaling_factor` (the FontFitter);
* `glavnaqt/ui/widget_adjustment.py` — widget/sidebar dimension adjustment,
  the per-section font passes and `apply_smallest_font_size` (the LayoutScaler);
* `glavnaqt/core/thread_manager.py` — `TaskRunnable` / `ThreadManager`
  (the TaskPool).

Python floats stepped by 0.5 and the single division `parent_width /
initial_text_width` are modelled over `ℚ`; Python `int(...)` truncation
toward zero is `pytrunc`.  Qt text measurement is an abstract function
`ℤ → ℤ` from the integer pixel size to the rendered width of the text.
-/

/-- Python `int(q)` on a rational: truncation toward zero. -/
def pytrunc (q : ℚ) : ℤ :=
  if 0 ≤ q then ⌊q⌋ else -⌊-q⌋

/-- Direction of the latest size step in the fit loop; the Python code keeps
`last_size_adjustment_direction ∈ {None, 'increase', 'decrease'}`. -/
inductive Direction where
  | increase
  | decrease
deriving DecidableEq, Repr

/-- The scalar arguments of `calculate_scaling_factor`
(`font_scaling.py`).  The text and font face are folded into the abstract
measurement function. -/
structure FitParams where
  parent_width : ℤ
  initial_text_width : ℤ
  max_font_size : ℤ
  min_font_size : ℤ
deriving DecidableEq, Repr

/-- The `while iteration_count < max_iterations` loop of
`calculate_scaling_factor` (`font_scaling.py` lines 40-71), with the
remaining iteration budget as fuel.  `measure sz` is
`QFontMetrics(QFont(font_face, pixelSize := sz)).boundingRect(actual_text).width()`.
Tolerance is the hard-coded `tolerance = 3`. -/
def fitLoop (measure : ℤ → ℤ) (p : FitParams) :
    ℕ → ℚ → Option Direction → ℚ
  | 0, size, _ => size
  | fuel + 1, size, lastDir =>
    let predicted := measure (pytrunc size)
    if |predicted - p.parent_width| ≤ 3 then
      size
    else if p.parent_width < predicted then
      if lastDir = some Direction.increase then
        size
      else
        let size' := size - 1/2
        if size' < (p.min_font_size : ℚ) then (p.min_font_size : ℚ)
        else if (p.max_font_size : ℚ) < size' then (p.max_font_size : ℚ)
        else fitLoop measure p fuel size' (some Direction.decrease)
    else
      if lastDir = some Direction.decrease then
        size
      else
        let size' := size + 1/2
        if size' < (p.min_font_size : ℚ) then (p.min_font_size : ℚ)
        else if (p.max_font_size : ℚ) < size' then (p.max_font_size : ℚ)
        else fitLoop measure p fuel size' (some Direction.increase)

/-- `calculate_scaling_factor` (`font_scaling.py` lines 6-77): initial
estimate `max_font_size * (parent_width / initial_text_width)` clamped to
`[min_font_size, max_font_size]`, then the iterative fit loop with
`max_iterations = 50`, returning `int(new_size)`. -/
def calculate_scaling_factor (measure : ℤ → ℤ)
    (parent_width initial_text_width max_font_size : ℤ)
    (min_font_size : ℤ := 3) : ℤ :=
  let scaling_factor : ℚ := (parent_width : ℚ) / (initial_text_width : ℚ)
  let new_size : ℚ := (max_font_size : ℚ) * scaling_factor
  let new_size :=
    if new_size < (min_font_size : ℚ) then (min_font_size : ℚ)
    else if (max_font_size : ℚ) < new_size then (max_font_size : ℚ)
    else new_size
  pytrunc (fitLoop measure
    ⟨parent_width, initial_text_width, max_font_size, min_font_size⟩
    50 new_size none)

example :
    calculate_scaling_factor (fun _ => 100) 100 10 12 3 = 12 := by
  with_unfolding_all decide

example :
    calculate_scaling_factor (fun sz => if sz ≤ 8 then 90 else 110)
      100 200 17 3 = 9 := by
  with_unfolding_all decide

/-- Every value the fit loop can return stays inside
`[min_font_size, max_font_size]` as soon as it starts there. -/
theorem fitLoop_mem_range (measure : ℤ → ℤ) (p : FitParams)
    (hb : (p.min_font_size : ℚ) ≤ (p.max_font_size : ℚ)) :
    ∀ (fuel : ℕ) (size : ℚ) (dir : Option Direction),
    (p.min_font_size : ℚ) ≤ size → size ≤ (p.max_font_size : ℚ) →
    (p.min_font_size : ℚ) ≤ fitLoop measure p fuel size dir ∧
      fitLoop measure p fuel size dir ≤ (p.max_font_size : ℚ) := by
  intro fuel
  induction fuel with
  | zero =>
    intro size dir h1 h2
    exact ⟨h1, h2⟩
  | succ n ih =>
    intro size dir h1 h2
    rw [fitLoop]
    dsimp only
    split_ifs with ht hw hg hlo hhi hg2 hlo2 hhi2
    · exact ⟨h1, h2⟩
    · exact ⟨h1, h2⟩
    · exact ⟨le_refl _, hb⟩
    · exact ⟨hb, le_refl _⟩
    · exact ih _ _ (not_lt.1 hlo) (not_lt.1 hhi)
    · exact ⟨h1, h2⟩
    · exact ⟨le_refl _, hb⟩
    · exact ⟨hb, le_refl _⟩
    · exact ih _ _ (not_lt.1 hlo2) (not_lt.1 hhi2)

/-- C1: for every call to `calculate_scaling_factor` with positive
`parent_width` and `initial_text_width`, integer font bounds with
`max_font_size ≥ min_font_size ≥ 1`, and any text-measurement function,
the returned value is an integer `n` with
`min_font_size ≤ n ≤ max_font_size`. -/
theorem calculate_scaling_factor_in_range
    (measure : ℤ → ℤ) (parent_width initial_text_width maxf minf : ℤ)
    (hpw : 0 < parent_width) (hitw : 0 < initial_text_width)
    (hminf : 1 ≤ minf) (hle : minf ≤ maxf) :
    minf ≤ calculate_scaling_factor measure parent_width initial_text_width maxf minf ∧
      calculate_scaling_factor measure parent_width initial_text_width maxf minf ≤ maxf := by
  have hbQ : (minf : ℚ) ≤ (maxf : ℚ) := by exact_mod_cast hle
  unfold calculate_scaling_factor
  dsimp only
  set t : ℚ :=
    (maxf : ℚ) * ((parent_width : ℚ) / (initial_text_width : ℚ)) with ht
  set init : ℚ :=
    if t < (minf : ℚ) then (minf : ℚ)
    else if (maxf : ℚ) < t then (maxf : ℚ) else t with hinitdef
  have hinit : (minf : ℚ) ≤ init ∧ init ≤ (maxf : ℚ) := by
    rw [hinitdef]
    split_ifs with h1 h2
    · exact ⟨le_refl _, hbQ⟩
    · exact ⟨hbQ, le_refl _⟩
    · exact ⟨not_lt.1 h1, not_lt.1 h2⟩
  obtain ⟨hL, hR⟩ :=
    fitLoop_mem_range measure
      ⟨parent_width, initial_text_width, maxf, minf⟩ hbQ 50 init none
      hinit.1 hinit.2
  set q : ℚ :=
    fitLoop measure ⟨parent_width, initial_text_width, maxf, minf⟩
      50 init none with hq
  have hq0 : (0 : ℚ) ≤ q := by
    have : (1 : ℚ) ≤ (minf : ℚ) := by exact_mod_cast hminf
    linarith
  have htr : pytrunc q = ⌊q⌋ := by
    rw [pytrunc, if_pos hq0]
  rw [htr]
  constructor
  · exact Int.le_floor.2 hL
  · have h1 : ⌊q⌋ ≤ ⌊(maxf : ℚ)⌋ := Int.floor_le_floor hR
    simpa using h1

/-- Witness for C1 at a concrete input. -/
theorem calculate_scaling_factor_in_range_witness :
    3 ≤ calculate_scaling_factor (fun _ => 100) 100 10 12 3 ∧
      calculate_scaling_factor (fun _ => 100) 100 10 12 3 ≤ 12 :=
  calculate_scaling_factor_in_range (fun _ => 100) 100 10 12 3
    (by norm_num) (by norm_num) (by norm_num) (by norm_num)

/-- A measurement profile on which the first correction of the fit search
overshoots: widths 90 at integer sizes ≤ 8 and 110 above, against a
100 px budget with tolerance 3. -/
def oscMeasure : ℤ → ℤ := fun sz => if sz ≤ 8 then 90 else 110

/-- C4: each loop step moves the size by 0.5 toward closing the gap
(decrease when the measured width exceeds the budget by more than the
tolerance, increase when it falls short by more than the tolerance); when
the previous step moved in the opposite corrective direction the search
returns the current size immediately; and on a profile whose first
correction overshoots (`oscMeasure`, budget 100, initial estimate 8.5) the
search returns after 2 iterations — any iteration budget of at least 2,
in particular the hard-coded 50, yields the same result 9. -/
theorem fit_oscillation_guard :
    (∀ (measure : ℤ → ℤ) (p : FitParams) (fuel : ℕ) (size : ℚ),
      p.parent_width + 3 < measure (pytrunc size) →
      fitLoop measure p (fuel + 1) size (some Direction.increase) = size) ∧
    (∀ (measure : ℤ → ℤ) (p : FitParams) (fuel : ℕ) (size : ℚ),
      measure (pytrunc size) < p.parent_width - 3 →
      fitLoop measure p (fuel + 1) size (some Direction.decrease) = size) ∧
    (∀ (measure : ℤ → ℤ) (p : FitParams) (fuel : ℕ) (size : ℚ)
      (dir : Option Direction),
      p.parent_width + 3 < measure (pytrunc size) →
      dir ≠ some Direction.increase →
      ¬(size - 1/2 < (p.min_font_size : ℚ)) →
      ¬((p.max_font_size : ℚ) < size - 1/2) →
      fitLoop measure p (fuel + 1) size dir
        = fitLoop measure p fuel (size - 1/2) (some Direction.decrease)) ∧
    (∀ (measure : ℤ → ℤ) (p : FitParams) (fuel : ℕ) (size : ℚ)
      (dir : Option Direction),
      measure (pytrunc size) < p.parent_width - 3 →
      dir ≠ some Direction.decrease →
      ¬(size + 1/2 < (p.min_font_size : ℚ)) →
      ¬((p.max_font_size : ℚ) < size + 1/2) →
      fitLoop measure p (fuel + 1) size dir
        = fitLoop measure p fuel (size + 1/2) (some Direction.increase)) ∧
    calculate_scaling_factor oscMeasure 100 200 17 3 = 9 ∧
    (∀ n : ℕ,
      fitLoop oscMeasure ⟨100, 200, 17, 3⟩ (n + 2) (17/2) none = 9) := by
  have habs : ∀ (a b : ℤ), b + 3 < a → ¬(|a - b| ≤ 3) := by
    intro a b h
    have h1 : (3 : ℤ) < a - b := by linarith
    have h2 : a - b ≤ |a - b| := le_abs_self _
    intro hc
    linarith
  have habs' : ∀ (a b : ℤ), a < b - 3 → ¬(|a - b| ≤ 3) := by
    intro a b h
    have h1 : (3 : ℤ) < -(a - b) := by linarith
    have h2 : -(a - b) ≤ |a - b| := neg_le_abs _
    intro hc
    linarith
  refine ⟨?_, ?_, ?_, ?_, ?_, ?_⟩
  · intro measure p fuel size h
    rw [fitLoop]
    dsimp only
    rw [if_neg (habs _ _ h), if_pos (by linarith), if_pos rfl]
  · intro measure p fuel size h
    rw [fitLoop]
    dsimp only
    rw [if_neg (habs' _ _ h), if_neg (by intro hc; linarith), if_pos rfl]
  · intro measure p fuel size dir h hdir hlo hhi
    rw [fitLoop]
    dsimp only
    rw [if_neg (habs _ _ h), if_pos (by linarith), if_neg hdir,
      if_neg hlo, if_neg hhi]
  · intro measure p fuel size dir h hdir hlo hhi
    rw [fitLoop]
    dsimp only
    rw [if_neg (habs' _ _ h), if_neg (by intro hc; linarith), if_neg hdir,
      if_neg hlo, if_neg hhi]
  · with_unfolding_all decide
  · intro n
    have e1 : oscMeasure (pytrunc (17/2 : ℚ)) = 90 := by
      with_unfolding_all decide
    have e2 : ((17 : ℚ)/2 + 1/2) = 9 := by norm_num
    show fitLoop oscMeasure ⟨100, 200, 17, 3⟩ (n + 1 + 1) (17/2) none = 9
    rw [fitLoop]
    dsimp only
    rw [e1]
    rw [if_neg (by decide), if_neg (by decide), if_neg (by decide),
      if_neg (by norm_num), if_neg (by norm_num), e2]
    have e3 : oscMeasure (pytrunc (9 : ℚ)) = 110 := by
      with_unfolding_all decide
    rw [fitLoop]
    dsimp only
    rw [e3]
    rw [if_neg (by decide), if_pos (by decide), if_pos rfl]

/-- Witness for C4: the oscillation guard applied at a concrete state —
measured width 200 against budget 100 with the previous step an increase
returns the current size 5 without a further step. -/
theorem fit_oscillation_guard_witness :
    fitLoop (fun _ => 200) ⟨100, 200, 17, 3⟩ 1 5
      (some Direction.increase) = 5 :=
  fit_oscillation_guard.1 (fun _ => 200) ⟨100, 200, 17, 3⟩ 0 5
    (by with_unfolding_all decide)

/-- `adjust_widget_dimension` (`widget_adjustment.py` lines 14-37):
`padding = max(2, int(dimension * padding_factor))` and the widget's fixed
width/height is set to `dimension + padding` (which of the two is set is
the `is_width` flag; the computed value is identical). -/
def adjust_widget_dimension (dimension : ℤ) (padding_factor : ℚ) : ℤ :=
  let padding := max 2 (pytrunc ((dimension : ℚ) * padding_factor))
  dimension + padding

/-- A section widget as the layout pass sees it: current font size, display
text, current width, whether it has a callable `text` attribute, and the
fixed width/height installed by `setFixedWidth`/`setFixedHeight`. -/
structure Widget where
  fontSize : ℤ
  text : String
  width : ℤ
  hasText : Bool
  fixedWidth : Option ℤ
  fixedHeight : Option ℤ
deriving DecidableEq, Repr

/-- The text-measurement capability of the GUI toolkit:
`measureWidth text size` is `QFontMetrics(font at size).boundingRect(text).width()`
and `heightOf size` is `QFontMetrics(font at size).height()` for the
configured font face. -/
structure Env where
  measureWidth : String → ℤ → ℤ
  heightOf : ℤ → ℤ

/-- The slice of the main-window state that
`adjust_font_and_widget_sizes` reads and writes: the five optional section
widgets, the stored initial sidebar widths, and the configuration values
`ui_config.font_size`, `ui_config.window_size[0]` and the current window
width. -/
structure UIState where
  top : Option Widget
  status : Option Widget
  left : Option Widget
  right : Option Widget
  main : Option Widget
  initial_left_sidebar_width : Option ℤ
  initial_right_sidebar_width : Option ℤ
  cfgFontSize : ℤ
  cfgWindowWidth : ℤ
  windowWidth : ℤ
deriving DecidableEq, Repr

/-- `apply_font_size_to_widget` (`widget_adjustment.py` lines 228-244):
a missing widget is logged and skipped, otherwise the font size is applied. -/
def apply_font_size_to_widget (w : Option Widget) (font_size : ℤ) :
    Option Widget :=
  match w with
  | none => none
  | some wid => some {wid with fontSize := font_size}

/-- `adjust_bar_height` (`widget_adjustment.py` lines 110-148) for a plain
label bar (the `QStatusBar`-composite branch substitutes the status label
and uses padding 0.4; the claims under verification only exercise the
plain 0.2 branch).  The splitter-handle side effect is outside this model;
`scaling_factor` is kept to mirror the source signature. -/
def adjust_bar_height (env : Env) (ui : UIState) (scaling_factor : ℚ)
    (w : Option Widget) : Option Widget × Option ℤ :=
  match w with
  | none => (none, none)
  | some bar =>
    let text_height := env.heightOf bar.fontSize
    let bar1 : Widget :=
      {bar with fixedHeight := some (adjust_widget_dimension text_height (1/5))}
    let new_font_size :=
      calculate_scaling_factor (env.measureWidth bar.text)
        ui.windowWidth text_height ui.cfgFontSize
    (some {bar1 with fontSize := new_font_size}, some new_font_size)

/-- `adjust_sidebar_width` (`widget_adjustment.py` lines 151-189): missing
sidebar or missing stored initial width is logged and skipped; otherwise
the sidebar width becomes `int(initial_width * scaling_factor)` with 10 %
padding via `adjust_widget_dimension`, and the font is refit with the new
width as both budget and reference. -/
def adjust_sidebar_width (env : Env) (ui : UIState) (scaling_factor : ℚ)
    (w : Option Widget) (initial_width : Option ℤ) :
    Option Widget × Option ℤ :=
  match w with
  | none => (none, none)
  | some sidebar =>
    match initial_width with
    | none => (some sidebar, none)
    | some iw =>
      let new_sidebar_width := pytrunc ((iw : ℚ) * scaling_factor)
      let sb1 : Widget :=
        {sidebar with
          fixedWidth := some (adjust_widget_dimension new_sidebar_width (1/10))}
      let fs :=
        calculate_scaling_factor (env.measureWidth sidebar.text)
          new_sidebar_width new_sidebar_width ui.cfgFontSize
      (some {sb1 with fontSize := fs}, some fs)

/-- `adjust_main_content_font_size` (`widget_adjustment.py` lines 192-225):
an absent main-content widget is logged and `None` is returned; a widget
without a callable `text` attribute is skipped; otherwise the font size is
refit with the widget's own width as both budget and reference.  The
widget itself is not modified by this step. -/
def adjust_main_content_font_size (env : Env) (ui : UIState) :
    Option Widget × Option ℤ :=
  match ui.main with
  | none => (none, none)
  | some mw =>
    if mw.hasText then
      (some mw,
        some (calculate_scaling_factor (env.measureWidth mw.text)
          mw.width mw.width ui.cfgFontSize))
    else (some mw, none)

/-- Python truthiness of an optional integer (`filter(None, ...)` and
`any(...)` drop both `None` and `0`). -/
def pyTruthyInt : Option ℤ → Bool
  | none => false
  | some n => n != 0

/-- `filter(None, font_sizes)` on a list of optional sizes. -/
def pyFilterTruthy (xs : List (Option ℤ)) : List ℤ :=
  xs.filterMap fun o =>
    match o with
    | none => none
    | some n => if n = 0 then none else some n

/-- The size selected by `apply_smallest_font_size`
(`widget_adjustment.py` line 275):
`min(filter(None, font_sizes)) if any(font_sizes) else ui_config.font_size`.
(The `getD` default is unreachable: when `any` holds the filtered list is
nonempty.) -/
def smallest_font_size (default : ℤ) (font_sizes : List (Option ℤ)) : ℤ :=
  if font_sizes.any pyTruthyInt then
    ((pyFilterTruthy font_sizes).min?).getD default
  else default

/-- `apply_smallest_font_size` (`widget_adjustment.py` lines 266-284):
the selected size is applied to every present section widget. -/
def apply_smallest_font_size (ui : UIState)
    (font_sizes : List (Option ℤ)) : UIState :=
  let s := smallest_font_size ui.cfgFontSize font_sizes
  { ui with
    top := apply_font_size_to_widget ui.top s
    status := apply_font_size_to_widget ui.status s
    left := apply_font_size_to_widget ui.left s
    right := apply_font_size_to_widget ui.right s
    main := apply_font_size_to_widget ui.main s }

/-- `adjust_font_and_widget_sizes` (`widget_adjustment.py` lines 41-72):
scale the two bars, the two sidebars and the main content, then apply the
smallest computed font size across all sections. -/
def adjust_font_and_widget_sizes (env : Env) (ui : UIState) : UIState :=
  let scaling_factor : ℚ := (ui.windowWidth : ℚ) / (ui.cfgWindowWidth : ℚ)
  let tr := adjust_bar_height env ui scaling_factor ui.top
  let sr := adjust_bar_height env ui scaling_factor ui.status
  let lr := adjust_sidebar_width env ui scaling_factor ui.left
    ui.initial_left_sidebar_width
  let rr := adjust_sidebar_width env ui scaling_factor ui.right
    ui.initial_right_sidebar_width
  let mr := adjust_main_content_font_size env ui
  apply_smallest_font_size
    { ui with
      top := tr.1
      status := sr.1
      left := lr.1
      right := rr.1
      main := mr.1 }
    [tr.2, sr.2, lr.2, rr.2, mr.2]

example : adjust_widget_dimension 100 (1/10) = 110 := by
  with_unfolding_all decide
example : adjust_widget_dimension (-2) (1/10) = 0 := by
  with_unfolding_all decide
example : smallest_font_size 33 [some 14, none, some 18, none, some 10] = 10 := by
  decide

/-- C9 counterexample: at dimension −2 (a box shrunk so far that the
proportional padding −0.2 is negative) the padding floor of 2 px still
yields the non-positive fixed dimension 0, so "never non-positive" fails
as stated. -/
theorem adjust_widget_dimension_nonpos_counterexample :
    adjust_widget_dimension (-2) (1/10) = 0 := by
  with_unfolding_all decide

/-- C9 (amended): the padding added is `max(2, int(dimension *
padding_factor))`, the resulting fixed dimension `dimension + padding` is
positive whenever `dimension ≥ -1` — in particular for every nonnegative
dimension arising in a layout pass, and at dimension −1 where the
proportional padding is negative — and a scaling ratio of 0.5 on a
sidebar with stored initial width 200 px and padding factor 0.1 yields
the fixed width `int(200*0.5) + max(2, int(int(200*0.5)*0.1)) = 110`. -/
theorem adjust_widget_dimension_padding_floor :
    (∀ (dimension : ℤ) (padding_factor : ℚ),
      adjust_widget_dimension dimension padding_factor
        = dimension + max 2 (pytrunc ((dimension : ℚ) * padding_factor))) ∧
    (∀ (dimension : ℤ) (padding_factor : ℚ), -1 ≤ dimension →
      0 < adjust_widget_dimension dimension padding_factor) ∧
    (∀ (env : Env) (ui : UIState) (w : Widget),
      ∃ w', (adjust_sidebar_width env ui (1/2) (some w) (some 200)).1
          = some w' ∧ w'.fixedWidth = some 110) := by
  refine ⟨fun dimension padding_factor => rfl, ?_, ?_⟩
  · intro dimension padding_factor h
    have h2 : (2 : ℤ) ≤ max 2 (pytrunc ((dimension : ℚ) * padding_factor)) :=
      le_max_left _ _
    show 0 < dimension + max 2 (pytrunc ((dimension : ℚ) * padding_factor))
    omega
  · intro env ui w
    have h1 : pytrunc (((200 : ℤ) : ℚ) * (1/2)) = 100 := by
      with_unfolding_all decide
    have h2 : adjust_widget_dimension 100 (1/10) = 110 := by
      with_unfolding_all decide
    dsimp only [adjust_sidebar_width]
    refine ⟨_, rfl, ?_⟩
    dsimp only
    rw [h1, h2]

/-- Witness for C9 (amended): positivity of the adjusted dimension at the
concrete dimension 0. -/
theorem adjust_widget_dimension_padding_floor_witness :
    0 < adjust_widget_dimension 0 (1/10) :=
  adjust_widget_dimension_padding_floor.2.1 0 (1/10) (by norm_num)

/-- When every produced size is positive, Python's truthiness filter
`filter(None, font_sizes)` coincides with dropping the `None` entries. -/
theorem pyFilterTruthy_eq_filterMap (xs : List (Option ℤ))
    (h : ∀ o ∈ xs, ∀ n : ℤ, o = some n → 0 < n) :
    pyFilterTruthy xs = xs.filterMap id := by
  induction xs with
  | nil => rfl
  | cons o tl ih =>
    have ht : ∀ o' ∈ tl, ∀ n : ℤ, o' = some n → 0 < n := fun o' ho' =>
      h o' (List.mem_cons_of_mem _ ho')
    cases o with
    | none =>
      simpa [pyFilterTruthy, List.filterMap_cons] using ih ht
    | some n =>
      have hn : 0 < n := h (some n) (List.mem_cons_self _ _) n rfl
      have hne : ¬(n = 0) := by omega
      simpa [pyFilterTruthy, List.filterMap_cons, hne] using ih ht

/-- The widget-side effect of `apply_font_size_to_widget`: whenever a
widget comes out, its font size is the applied one. -/
theorem apply_font_size_to_widget_fontSize (o : Option Widget) (s : ℤ) :
    ∀ w, apply_font_size_to_widget o s = some w → w.fontSize = s := by
  intro w hw
  cases o with
  | none => simp [apply_font_size_to_widget] at hw
  | some v =>
    simp only [apply_font_size_to_widget, Option.some.injEq] at hw
    rw [← hw]

/-- C3: under positive per-section sizes, the size selected by
`apply_smallest_font_size` is the minimum of the non-null per-section
sizes (the configured default when all are null), it is applied to every
present section widget, and on sizes top = 14, left = 18,
main_content = 10 the applied size is 10. -/
theorem apply_smallest_font_size_min :
    (∀ (default : ℤ) (font_sizes : List (Option ℤ)),
      (∀ o ∈ font_sizes, ∀ n : ℤ, o = some n → 0 < n) →
      smallest_font_size default font_sizes
        = ((font_sizes.filterMap id).min?).getD default) ∧
    (∀ (ui : UIState) (font_sizes : List (Option ℤ)),
      (∀ w, (apply_smallest_font_size ui font_sizes).top = some w →
        w.fontSize = smallest_font_size ui.cfgFontSize font_sizes) ∧
      (∀ w, (apply_smallest_font_size ui font_sizes).status = some w →
        w.fontSize = smallest_font_size ui.cfgFontSize font_sizes) ∧
      (∀ w, (apply_smallest_font_size ui font_sizes).left = some w →
        w.fontSize = smallest_font_size ui.cfgFontSize font_sizes) ∧
      (∀ w, (apply_smallest_font_size ui font_sizes).right = some w →
        w.fontSize = smallest_font_size ui.cfgFontSize font_sizes) ∧
      (∀ w, (apply_smallest_font_size ui font_sizes).main = some w →
        w.fontSize = smallest_font_size ui.cfgFontSize font_sizes)) ∧
    (∀ default : ℤ,
      smallest_font_size default [some 14, none, some 18, none, some 10]
        = 10) ∧
    (∀ default : ℤ,
      smallest_font_size default [none, none, none, none, none] = default) := by
  refine ⟨?_, ?_, fun default => rfl, fun default => rfl⟩
  · intro d xs h
    have hf := pyFilterTruthy_eq_filterMap xs h
    by_cases ha : xs.any pyTruthyInt
    · simp [smallest_font_size, ha, hf]
    · have hnil : xs.filterMap id = [] := by
        rw [List.filterMap_eq_nil_iff]
        intro o ho
        rcases o with _ | n
        · rfl
        · exfalso
          have h1 : 0 < n := h (some n) ho n rfl
          have h2 : pyTruthyInt (some n) = false := by
            have := List.any_eq_true.not.1 ha
            push_neg at this
            simpa using this (some n) ho
          simp [pyTruthyInt] at h2
          omega
      simp [smallest_font_size, ha, hnil]
  · intro ui xs
    exact ⟨apply_font_size_to_widget_fontSize _ _,
      apply_font_size_to_widget_fontSize _ _,
      apply_font_size_to_widget_fontSize _ _,
      apply_font_size_to_widget_fontSize _ _,
      apply_font_size_to_widget_fontSize _ _⟩

/-- Witness for C3: the selected size equals the minimum of the non-null
sizes at the concrete list 14/18/10 with default 12. -/
theorem apply_smallest_font_size_min_witness :
    smallest_font_size 12 [some 14, none, some 18, none, some 10]
      = (([some 14, none, some 18, none, some 10].filterMap
          (id : Option ℤ → Option ℤ)).min?).getD 12 :=
  apply_smallest_font_size_min.1 12 _ (by
    intro o ho n hn
    rw [hn] at ho
    simp at ho
    rcases ho with rfl | rfl | rfl <;> norm_num)

/-!
TaskPool (`glavnaqt/core/thread_manager.py`).

`active_tasks_by_tag` is a Python dict; it is modelled as an association
list with dict semantics (`tagLookup` finds the first matching key,
`setTag` updates it in place, `removeTag` pops it, `incrTag` is the
`defaultdict(int)` increment that inserts a fresh entry at the end).
Worker threads are collapsed into explicit task execution: a submitted
`TaskRunnable` sits in `pending` until it is run; `taskRun` is
`TaskRunnable.run`, whose observable effects (work executed or raised,
callbacks invoked or raised, all caught and logged) are recorded in the
log fields.  `wakes` counts `tag_condition.wakeAll()` calls.
-/

/-- The two semantically distinct completion callbacks a task can carry:
the pool's own bookkeeping `task_finished_callback`, or a caller-supplied
callback (which does not touch the tag bookkeeping; `raisesCB` says
whether it raises when invoked). -/
inductive CB where
  | poolDefault
  | custom (raisesCB : Bool)
deriving DecidableEq, Repr

/-- `TaskRunnable` (`thread_manager.py` lines 19-63): the wrapped work
function is reduced to its observable behaviour (`id` identifies it in
the logs, `raises` says whether it raises), plus the tag and the resolved
`on_finished` callback (`none` only for a runnable built outside
`submit_task`). -/
structure TaskRunnable where
  id : ℕ
  tag : Option String
  raises : Bool
  cb : Option CB
deriving DecidableEq, Repr

/-- Python dict lookup on the tag map. -/
def tagLookup : List (String × ℤ) → String → Option ℤ
  | [], _ => none
  | p :: tl, g => if p.1 = g then some p.2 else tagLookup tl g

/-- Python dict in-place update of an existing key. -/
def setTag : List (String × ℤ) → String → ℤ → List (String × ℤ)
  | [], _, _ => []
  | p :: tl, g, c => if p.1 = g then (g, c) :: tl else p :: setTag tl g c

/-- Python `dict.pop(tag, None)`: the key is dropped from the map
(dict keys are unique, so dropping every occurrence of the key is the
same operation). -/
def removeTag : List (String × ℤ) → String → List (String × ℤ)
  | [], _ => []
  | p :: tl, g => if p.1 = g then removeTag tl g else p :: removeTag tl g

/-- `defaultdict(int)` increment `active_tasks_by_tag[tag] += 1`: update
the entry if present, otherwise insert it with count 1. -/
def incrTag (m : List (String × ℤ)) (g : String) : List (String × ℤ) :=
  match tagLookup m g with
  | some c => setTag m g (c + 1)
  | none => m ++ [(g, 1)]

/-- `ThreadManager` state (`thread_manager.py` lines 66-94) together with
the observable execution history of its tasks. -/
structure ThreadManager where
  is_shutting_down : Bool
  active_tasks_by_tag : List (String × ℤ)
  pending : List TaskRunnable
  executedLog : List ℕ
  workErrors : List ℕ
  cbErrors : List ℕ
  onFinishedLog : List ℕ
  customCalls : List ℕ
  wakes : ℕ
deriving DecidableEq, Repr

/-- A freshly constructed `ThreadManager`. -/
def initTM : ThreadManager :=
  ⟨false, [], [], [], [], [], [], [], 0⟩

/-- `task_finished_callback` (`thread_manager.py` lines 131-145): under
the tag mutex, if the (truthy) tag is tracked, decrement its count; when
the decremented count is ≤ 0, pop the entry and wake all waiters. -/
def task_finished_callback (tm : ThreadManager) (tag : Option String) :
    ThreadManager :=
  match tag with
  | none => tm
  | some g =>
    if g = "" then tm
    else
      match tagLookup tm.active_tasks_by_tag g with
      | none => tm
      | some c =>
        if c - 1 ≤ 0 then
          { tm with
            active_tasks_by_tag := removeTag tm.active_tasks_by_tag g
            wakes := tm.wakes + 1 }
        else
          { tm with
            active_tasks_by_tag := setTag tm.active_tasks_by_tag g (c - 1) }

/-- `TaskRunnable.run` (`thread_manager.py` lines 48-63): run the work
function, catching and logging any exception; in the `finally` block
invoke `on_finished` (if any) exactly once, catching and logging any
exception it raises in turn.  The pool's default callback performs the
tag bookkeeping; a custom callback only records its invocation. -/
def taskRun (tm : ThreadManager) (t : TaskRunnable) : ThreadManager :=
  let tm1 :=
    if t.raises then { tm with workErrors := tm.workErrors ++ [t.id] }
    else { tm with executedLog := tm.executedLog ++ [t.id] }
  match t.cb with
  | none => tm1
  | some CB.poolDefault =>
    task_finished_callback
      { tm1 with onFinishedLog := tm1.onFinishedLog ++ [t.id] } t.tag
  | some (CB.custom r) =>
    let tm2 :=
      { tm1 with
        onFinishedLog := tm1.onFinishedLog ++ [t.id]
        customCalls := tm1.customCalls ++ [t.id] }
    if r then { tm2 with cbErrors := tm2.cbErrors ++ [t.id] } else tm2

/-- `submit_task` (`thread_manager.py` lines 96-129): under the shutdown
mutex, reject with `None` when shutting down; otherwise build the
runnable with `on_finished or self.task_finished_callback`, increment the
(truthy) tag's active count, schedule the runnable and return it. -/
def submit_task (tm : ThreadManager) (i : ℕ) (raises : Bool)
    (tag : Option String) (on_finished : Option CB) :
    ThreadManager × Option TaskRunnable :=
  if tm.is_shutting_down then (tm, none)
  else
    let runnable : TaskRunnable :=
      ⟨i, tag, raises, some (on_finished.getD CB.poolDefault)⟩
    let tm1 :=
      match tag with
      | some g =>
        if g = "" then tm
        else
          { tm with
            active_tasks_by_tag := incrTag tm.active_tasks_by_tag g }
      | none => tm
    ({ tm1 with pending := tm1.pending ++ [runnable] }, some runnable)

/-- The guard of the `wait_for_tagged_tasks` loop (`thread_manager.py`
lines 147-156): the caller stays blocked exactly while the tag is present
in the active map. -/
def wait_for_tagged_tasks_blocked (tm : ThreadManager) (tag : String) :
    Bool :=
  (tagLookup tm.active_tasks_by_tag tag).isSome

/-- `QThreadPool.waitForDone()` as observed by the caller of `shutdown`:
when it returns, every queued task has been run to completion. -/
def runPending (tm : ThreadManager) : ThreadManager :=
  tm.pending.foldl taskRun { tm with pending := [] }

/-- `shutdown` (`thread_manager.py` lines 158-170): set the shutdown flag
under its mutex, then `thread_pool.waitForDone()` — which blocks until
all submitted tasks have finished running. -/
def shutdown (tm : ThreadManager) : ThreadManager :=
  runPending { tm with is_shutting_down := true }

example :
    (shutdown (submit_task initTM 0 false (some "x") none).1).executedLog
      = [0] := by decide
example :
    (shutdown (submit_task initTM 0 false (some "x") none).1).active_tasks_by_tag
      = [] := by decide
example :
    (submit_task (shutdown initTM) 0 false (some "x") none).2 = none := by
  decide

/-- The tag-map invariant of the spec: every stored count is positive
(so an entry exists exactly for tags with active count > 0). -/
def TagInv (m : List (String × ℤ)) : Prop := ∀ p ∈ m, 0 < p.2

/-- Under `TagInv`, any count found by lookup is positive. -/
theorem tagLookup_pos {m : List (String × ℤ)} (h : TagInv m)
    {g : String} {c : ℤ} (hl : tagLookup m g = some c) : 0 < c := by
  induction m with
  | nil => simp [tagLookup] at hl
  | cons p tl ih =>
    rw [tagLookup] at hl
    by_cases hp : p.1 = g
    · rw [if_pos hp] at hl
      cases hl
      exact h p (List.mem_cons_self _ _)
    · rw [if_neg hp] at hl
      exact ih (fun q hq => h q (List.mem_cons_of_mem _ hq)) hl

/-- Updating an existing key finds the new value. -/
theorem tagLookup_setTag_self {m : List (String × ℤ)} {g : String}
    {c0 : ℤ} (hl : tagLookup m g = some c0) (c : ℤ) :
    tagLookup (setTag m g c) g = some c := by
  induction m with
  | nil => simp [tagLookup] at hl
  | cons p tl ih =>
    rw [tagLookup] at hl
    by_cases hp : p.1 = g
    · rw [setTag, if_pos hp, tagLookup, if_pos rfl]
    · rw [if_neg hp] at hl
      rw [setTag, if_neg hp, tagLookup, if_neg hp]
      exact ih hl

/-- After `removeTag` the key is gone. -/
theorem tagLookup_removeTag_self (m : List (String × ℤ)) (g : String) :
    tagLookup (removeTag m g) g = none := by
  induction m with
  | nil => rfl
  | cons p tl ih =>
    rw [removeTag]
    by_cases hp : p.1 = g
    · rw [if_pos hp]
      exact ih
    · rw [if_neg hp, tagLookup, if_neg hp]
      exact ih

/-- Lookup walks past a prefix that does not contain the key. -/
theorem tagLookup_append_none {m : List (String × ℤ)} {g : String}
    (hl : tagLookup m g = none) (l : List (String × ℤ)) :
    tagLookup (m ++ l) g = tagLookup l g := by
  induction m with
  | nil => rfl
  | cons p tl ih =>
    rw [tagLookup] at hl
    by_cases hp : p.1 = g
    · rw [if_pos hp] at hl
      cases hl
    · rw [if_neg hp] at hl
      rw [List.cons_append, tagLookup, if_neg hp]
      exact ih hl

/-- The `defaultdict` increment is visible through lookup. -/
theorem tagLookup_incrTag_self (m : List (String × ℤ)) (g : String) :
    tagLookup (incrTag m g) g
      = some ((tagLookup m g).getD 0 + 1) := by
  rw [incrTag]
  cases hl : tagLookup m g with
  | none =>
    rw [tagLookup_append_none hl, tagLookup, if_pos rfl]
    rfl
  | some c =>
    rw [tagLookup_setTag_self hl]
    rfl

/-- `setTag` with a positive count preserves the invariant. -/
theorem setTag_TagInv {m : List (String × ℤ)} (h : TagInv m)
    {c : ℤ} (hc : 0 < c) (g : String) : TagInv (setTag m g c) := by
  induction m with
  | nil => intro q hq; simp [setTag] at hq
  | cons p tl ih =>
    intro q hq
    rw [setTag] at hq
    by_cases hp : p.1 = g
    · rw [if_pos hp] at hq
      rcases List.mem_cons.1 hq with rfl | hq'
      · exact hc
      · exact h q (List.mem_cons_of_mem _ hq')
    · rw [if_neg hp] at hq
      rcases List.mem_cons.1 hq with rfl | hq'
      · exact h q (List.mem_cons_self _ _)
      · exact ih (fun r hr => h r (List.mem_cons_of_mem _ hr)) q hq'

/-- `removeTag` preserves the invariant. -/
theorem removeTag_TagInv {m : List (String × ℤ)} (h : TagInv m)
    (g : String) : TagInv (removeTag m g) := by
  induction m with
  | nil => intro q hq; simp [removeTag] at hq
  | cons p tl ih =>
    intro q hq
    rw [removeTag] at hq
    by_cases hp : p.1 = g
    · rw [if_pos hp] at hq
      exact ih (fun r hr => h r (List.mem_cons_of_mem _ hr)) q hq
    · rw [if_neg hp] at hq
      rcases List.mem_cons.1 hq with rfl | hq'
      · exact h q (List.mem_cons_self _ _)
      · exact ih (fun r hr => h r (List.mem_cons_of_mem _ hr)) q hq'

/-- `incrTag` preserves the invariant. -/
theorem incrTag_TagInv {m : List (String × ℤ)} (h : TagInv m)
    (g : String) : TagInv (incrTag m g) := by
  rw [incrTag]
  cases hl : tagLookup m g with
  | none =>
    intro q hq
    rcases List.mem_append.1 hq with hq' | hq'
    · exact h q hq'
    · rcases List.mem_singleton.1 hq' with rfl
      norm_num
  | some c =>
    have hc : 0 < c := tagLookup_pos h hl
    exact setTag_TagInv h (by omega) g

/-- `task_finished_callback` touches only the tag map and the wake
counter. -/
theorem task_finished_callback_shape (tm : ThreadManager)
    (tag : Option String) :
    ∃ a w, task_finished_callback tm tag
      = { tm with active_tasks_by_tag := a, wakes := w } := by
  cases tag with
  | none => exact ⟨tm.active_tasks_by_tag, tm.wakes, rfl⟩
  | some g =>
    by_cases hg : g = ""
    · refine ⟨tm.active_tasks_by_tag, tm.wakes, ?_⟩
      rw [task_finished_callback, if_pos hg]
    · cases hl : tagLookup tm.active_tasks_by_tag g with
      | none =>
        refine ⟨tm.active_tasks_by_tag, tm.wakes, ?_⟩
        rw [task_finished_callback, if_neg hg, hl]
      | some c =>
        by_cases hc : c - 1 ≤ 0
        · refine ⟨removeTag tm.active_tasks_by_tag g, tm.wakes + 1, ?_⟩
          rw [task_finished_callback, if_neg hg, hl]
          dsimp only
          rw [if_pos hc]
        · refine ⟨setTag tm.active_tasks_by_tag g (c - 1), tm.wakes, ?_⟩
          rw [task_finished_callback, if_neg hg, hl]
          dsimp only
          rw [if_neg hc]

/-- The tag map after `task_finished_callback` depends only on the tag
map before it. -/
theorem task_finished_callback_active_congr (tm tm' : ThreadManager)
    (tag : Option String)
    (h : tm.active_tasks_by_tag = tm'.active_tasks_by_tag) :
    (task_finished_callback tm tag).active_tasks_by_tag
      = (task_finished_callback tm' tag).active_tasks_by_tag := by
  cases tag with
  | none => exact h
  | some g =>
    by_cases hg : g = ""
    · rw [task_finished_callback, task_finished_callback, if_pos hg,
        if_pos hg]
      exact h
    · rw [task_finished_callback, task_finished_callback, if_neg hg,
        if_neg hg, h]
      cases hl : tagLookup tm'.active_tasks_by_tag g with
      | none => exact h
      | some c =>
        dsimp only
        by_cases hc : c - 1 ≤ 0
        · rw [if_pos hc, if_pos hc]
        · rw [if_neg hc, if_neg hc]

/-- `taskRun` touches neither the shutdown flag nor the queue. -/
theorem taskRun_shape (tm : ThreadManager) (t : TaskRunnable) :
    ∃ a e w c o cc wk, taskRun tm t
      = { tm with
          active_tasks_by_tag := a
          executedLog := e
          workErrors := w
          cbErrors := c
          onFinishedLog := o
          customCalls := cc
          wakes := wk } := by
  rcases t with ⟨i, tag, raises, cb⟩
  rcases cb with _ | c0
  · cases raises
    · exact ⟨tm.active_tasks_by_tag, tm.executedLog ++ [i], tm.workErrors,
        tm.cbErrors, tm.onFinishedLog, tm.customCalls, tm.wakes, rfl⟩
    · exact ⟨tm.active_tasks_by_tag, tm.executedLog, tm.workErrors ++ [i],
        tm.cbErrors, tm.onFinishedLog, tm.customCalls, tm.wakes, rfl⟩
  · rcases c0 with _ | r
    · cases raises
      · obtain ⟨a, w, hs⟩ := task_finished_callback_shape
          { tm with
            executedLog := tm.executedLog ++ [i]
            onFinishedLog := tm.onFinishedLog ++ [i] } tag
        refine ⟨a, tm.executedLog ++ [i], tm.workErrors, tm.cbErrors,
          tm.onFinishedLog ++ [i], tm.customCalls, w, ?_⟩
        show task_finished_callback
            { tm with
              executedLog := tm.executedLog ++ [i]
              onFinishedLog := tm.onFinishedLog ++ [i] } tag = _
        rw [hs]
      · obtain ⟨a, w, hs⟩ := task_finished_callback_shape
          { tm with
            workErrors := tm.workErrors ++ [i]
            onFinishedLog := tm.onFinishedLog ++ [i] } tag
        refine ⟨a, tm.executedLog, tm.workErrors ++ [i], tm.cbErrors,
          tm.onFinishedLog ++ [i], tm.customCalls, w, ?_⟩
        show task_finished_callback
            { tm with
              workErrors := tm.workErrors ++ [i]
              onFinishedLog := tm.onFinishedLog ++ [i] } tag = _
        rw [hs]
    · cases raises
      · cases r
        · exact ⟨tm.active_tasks_by_tag, tm.executedLog ++ [i],
            tm.workErrors, tm.cbErrors, tm.onFinishedLog ++ [i],
            tm.customCalls ++ [i], tm.wakes, rfl⟩
        · exact ⟨tm.active_tasks_by_tag, tm.executedLog ++ [i],
            tm.workErrors, tm.cbErrors ++ [i], tm.onFinishedLog ++ [i],
            tm.customCalls ++ [i], tm.wakes, rfl⟩
      · cases r
        · exact ⟨tm.active_tasks_by_tag, tm.executedLog,
            tm.workErrors ++ [i], tm.cbErrors, tm.onFinishedLog ++ [i],
            tm.customCalls ++ [i], tm.wakes, rfl⟩
        · exact ⟨tm.active_tasks_by_tag, tm.executedLog,
            tm.workErrors ++ [i], tm.cbErrors ++ [i],
            tm.onFinishedLog ++ [i], tm.customCalls ++ [i], tm.wakes, rfl⟩

/-- `taskRun` never changes the shutdown flag. -/
theorem taskRun_is_shutting_down (tm : ThreadManager) (t : TaskRunnable) :
    (taskRun tm t).is_shutting_down = tm.is_shutting_down := by
  obtain ⟨a, e, w, c, o, cc, wk, h⟩ := taskRun_shape tm t
  rw [h]

/-- `taskRun` never changes the queue. -/
theorem taskRun_pending (tm : ThreadManager) (t : TaskRunnable) :
    (taskRun tm t).pending = tm.pending := by
  obtain ⟨a, e, w, c, o, cc, wk, h⟩ := taskRun_shape tm t
  rw [h]

/-- What `taskRun` records about the work function: normal completion is
logged in `executedLog`, a raised fault in `workErrors`. -/
theorem taskRun_executedLog (tm : ThreadManager) (t : TaskRunnable) :
    (taskRun tm t).executedLog
      = if t.raises then tm.executedLog else tm.executedLog ++ [t.id] := by
  rcases t with ⟨i, tag, raises, cb⟩
  rcases cb with _ | c0
  · cases raises <;> rfl
  · rcases c0 with _ | r
    · cases raises
      · obtain ⟨a, w, hs⟩ := task_finished_callback_shape
          { tm with
            executedLog := tm.executedLog ++ [i]
            onFinishedLog := tm.onFinishedLog ++ [i] } tag
        show (task_finished_callback
            { tm with
              executedLog := tm.executedLog ++ [i]
              onFinishedLog := tm.onFinishedLog ++ [i] } tag).executedLog = _
        rw [hs]
        rfl
      · obtain ⟨a, w, hs⟩ := task_finished_callback_shape
          { tm with
            workErrors := tm.workErrors ++ [i]
            onFinishedLog := tm.onFinishedLog ++ [i] } tag
        show (task_finished_callback
            { tm with
              workErrors := tm.workErrors ++ [i]
              onFinishedLog := tm.onFinishedLog ++ [i] } tag).executedLog = _
        rw [hs]
        rfl
    · cases raises <;> cases r <;> rfl

/-- Counterpart of `taskRun_executedLog` for the error log. -/
theorem taskRun_workErrors (tm : ThreadManager) (t : TaskRunnable) :
    (taskRun tm t).workErrors
      = if t.raises then tm.workErrors ++ [t.id] else tm.workErrors := by
  rcases t with ⟨i, tag, raises, cb⟩
  rcases cb with _ | c0
  · cases raises <;> rfl
  · rcases c0 with _ | r
    · cases raises
      · obtain ⟨a, w, hs⟩ := task_finished_callback_shape
          { tm with
            executedLog := tm.executedLog ++ [i]
            onFinishedLog := tm.onFinishedLog ++ [i] } tag
        show (task_finished_callback
            { tm with
              executedLog := tm.executedLog ++ [i]
              onFinishedLog := tm.onFinishedLog ++ [i] } tag).workErrors = _
        rw [hs]
        rfl
      · obtain ⟨a, w, hs⟩ := task_finished_callback_shape
          { tm with
            workErrors := tm.workErrors ++ [i]
            onFinishedLog := tm.onFinishedLog ++ [i] } tag
        show (task_finished_callback
            { tm with
              workErrors := tm.workErrors ++ [i]
              onFinishedLog := tm.onFinishedLog ++ [i] } tag).workErrors = _
        rw [hs]
        rfl
    · cases raises <;> cases r <;> rfl

/-- Running one more task never erases an execution record. -/
theorem taskRun_executed_mono (tm : ThreadManager) (t : TaskRunnable)
    (x : ℕ) (hx : x ∈ tm.executedLog) : x ∈ (taskRun tm t).executedLog := by
  rw [taskRun_executedLog]
  split_ifs
  · exact hx
  · exact List.mem_append_left _ hx

/-- Running one more task never erases an error record. -/
theorem taskRun_workErrors_mono (tm : ThreadManager) (t : TaskRunnable)
    (x : ℕ) (hx : x ∈ tm.workErrors) : x ∈ (taskRun tm t).workErrors := by
  rw [taskRun_workErrors]
  split_ifs
  · exact List.mem_append_left _ hx
  · exact hx

/-- Draining a queue keeps the shutdown flag. -/
theorem foldl_taskRun_is_shutting_down :
    ∀ (l : List TaskRunnable) (tm : ThreadManager),
    (l.foldl taskRun tm).is_shutting_down = tm.is_shutting_down := by
  intro l
  induction l with
  | nil => intro tm; rfl
  | cons hd tl ih =>
    intro tm
    rw [List.foldl_cons, ih, taskRun_is_shutting_down]

/-- Draining a queue keeps the (already emptied) queue field. -/
theorem foldl_taskRun_pending :
    ∀ (l : List TaskRunnable) (tm : ThreadManager),
    (l.foldl taskRun tm).pending = tm.pending := by
  intro l
  induction l with
  | nil => intro tm; rfl
  | cons hd tl ih =>
    intro tm
    rw [List.foldl_cons, ih, taskRun_pending]

/-- Execution records survive draining the rest of the queue. -/
theorem foldl_taskRun_executed_mono :
    ∀ (l : List TaskRunnable) (tm : ThreadManager) (x : ℕ),
    x ∈ tm.executedLog → x ∈ (l.foldl taskRun tm).executedLog := by
  intro l
  induction l with
  | nil => intro tm x hx; exact hx
  | cons hd tl ih =>
    intro tm x hx
    rw [List.foldl_cons]
    exact ih _ _ (taskRun_executed_mono _ _ _ hx)

/-- Error records survive draining the rest of the queue. -/
theorem foldl_taskRun_workErrors_mono :
    ∀ (l : List TaskRunnable) (tm : ThreadManager) (x : ℕ),
    x ∈ tm.workErrors → x ∈ (l.foldl taskRun tm).workErrors := by
  intro l
  induction l with
  | nil => intro tm x hx; exact hx
  | cons hd tl ih =>
    intro tm x hx
    rw [List.foldl_cons]
    exact ih _ _ (taskRun_workErrors_mono _ _ _ hx)

/-- Every task of a drained queue leaves its completion record. -/
theorem foldl_taskRun_runs :
    ∀ (l : List TaskRunnable) (tm : ThreadManager), ∀ t ∈ l,
    (t.raises = false → t.id ∈ (l.foldl taskRun tm).executedLog) ∧
    (t.raises = true → t.id ∈ (l.foldl taskRun tm).workErrors) := by
  intro l
  induction l with
  | nil =>
    intro tm t ht
    simp at ht
  | cons hd tl ih =>
    intro tm t ht
    rcases List.mem_cons.1 ht with rfl | ht'
    · constructor
      · intro hr
        rw [List.foldl_cons]
        apply foldl_taskRun_executed_mono
        rw [taskRun_executedLog, hr]
        simp
      · intro hr
        rw [List.foldl_cons]
        apply foldl_taskRun_workErrors_mono
        rw [taskRun_workErrors, hr]
        simp
    · rw [List.foldl_cons]
      exact ih _ t ht'

/-- C2 counterexample: submit one tagged task to a fresh manager, then
call `shutdown`.  The queued, not-yet-started task is not discarded: it
runs to completion during `shutdown` (its work executes, its completion
callback fires, the tag entry is removed and waiters are woken), i.e.
`shutdown` waited for it. -/
theorem shutdown_discards_counterexample :
    (shutdown (submit_task initTM 0 false (some "x") none).1).executedLog
        = [0] ∧
    (shutdown (submit_task initTM 0 false (some "x") none).1).onFinishedLog
        = [0] ∧
    (shutdown (submit_task initTM 0 false (some "x") none).1).active_tasks_by_tag
        = [] ∧
    (shutdown (submit_task initTM 0 false (some "x") none).1).wakes = 1 := by
  decide

/-- C2 (amended): `shutdown` sets the shutdown flag, so every later
submission is rejected with a null handle, and then blocks in
`thread_pool.waitForDone()` until every already-submitted task has run to
completion; it requests no cancellation (the manager has no cancellation
mechanism) and discards no queued work. -/
theorem shutdown_waits (tm : ThreadManager) :
    (shutdown tm).is_shutting_down = true ∧
    (shutdown tm).pending = [] ∧
    (∀ t ∈ tm.pending,
      (t.raises = false → t.id ∈ (shutdown tm).executedLog) ∧
      (t.raises = true → t.id ∈ (shutdown tm).workErrors)) ∧
    (∀ (i : ℕ) (r : Bool) (tag : Option String) (cb : Option CB),
      (submit_task (shutdown tm) i r tag cb).2 = none) := by
  have hflag : (shutdown tm).is_shutting_down = true := by
    rw [shutdown, runPending, foldl_taskRun_is_shutting_down]
  refine ⟨hflag, ?_, ?_, ?_⟩
  · rw [shutdown, runPending, foldl_taskRun_pending]
  · intro t ht
    exact foldl_taskRun_runs _ _ t ht
  · intro i r tag cb
    unfold submit_task
    rw [if_pos hflag]

/-- Witness for C2 (amended) at a one-task queue. -/
theorem shutdown_waits_witness :
    (shutdown (submit_task initTM 7 false (some "x") none).1).is_shutting_down
        = true ∧
    7 ∈ (shutdown (submit_task initTM 7 false (some "x") none).1).executedLog := by
  have h := shutdown_waits (submit_task initTM 7 false (some "x") none).1
  refine ⟨h.1, ?_⟩
  have ht : (⟨7, some "x", false, some CB.poolDefault⟩ : TaskRunnable)
      ∈ (submit_task initTM 7 false (some "x") none).1.pending := by decide
  exact (h.2.2.1 _ ht).1 rfl

/-- C5: across submit and task-completion operations the tag map never
holds a non-positive count (an entry exists only for tags with active
count > 0); a decrement that reaches zero or below removes the entry and
wakes the waiters exactly once; a decrement from a count above one keeps
the entry with the decremented count and wakes nobody; completion of an
untracked tag changes nothing. -/
theorem tag_count_invariant :
    (∀ (tm : ThreadManager) (i : ℕ) (r : Bool) (tag : Option String)
        (cb : Option CB), TagInv tm.active_tasks_by_tag →
      TagInv ((submit_task tm i r tag cb).1).active_tasks_by_tag) ∧
    (∀ (tm : ThreadManager) (tag : Option String),
      TagInv tm.active_tasks_by_tag →
      TagInv (task_finished_callback tm tag).active_tasks_by_tag) ∧
    (∀ (tm : ThreadManager) (g : String) (c : ℤ),
      TagInv tm.active_tasks_by_tag →
      tagLookup tm.active_tasks_by_tag g = some c → 0 < c) ∧
    (∀ (tm : ThreadManager) (g : String) (c : ℤ), g ≠ "" →
      tagLookup tm.active_tasks_by_tag g = some c → c ≤ 1 →
      (task_finished_callback tm (some g)).active_tasks_by_tag
          = removeTag tm.active_tasks_by_tag g ∧
      tagLookup (task_finished_callback tm (some g)).active_tasks_by_tag g
          = none ∧
      (task_finished_callback tm (some g)).wakes = tm.wakes + 1) ∧
    (∀ (tm : ThreadManager) (g : String) (c : ℤ), g ≠ "" →
      tagLookup tm.active_tasks_by_tag g = some c → 1 < c →
      tagLookup (task_finished_callback tm (some g)).active_tasks_by_tag g
          = some (c - 1) ∧
      (task_finished_callback tm (some g)).wakes = tm.wakes) ∧
    (∀ (tm : ThreadManager) (g : String),
      tagLookup tm.active_tasks_by_tag g = none →
      task_finished_callback tm (some g) = tm) := by
  refine ⟨?_, ?_, ?_, ?_, ?_, ?_⟩
  · intro tm i r tag cb h
    unfold submit_task
    by_cases hs : tm.is_shutting_down = true
    · rw [if_pos hs]
      exact h
    · rw [if_neg hs]
      dsimp only
      cases tag with
      | none => exact h
      | some g =>
        dsimp only
        by_cases hg : g = ""
        · rw [if_pos hg]
          exact h
        · rw [if_neg hg]
          exact incrTag_TagInv h g
  · intro tm tag h
    cases tag with
    | none => exact h
    | some g =>
      by_cases hg : g = ""
      · rw [task_finished_callback, if_pos hg]
        exact h
      · rw [task_finished_callback, if_neg hg]
        cases hl : tagLookup tm.active_tasks_by_tag g with
        | none => exact h
        | some c =>
          dsimp only
          by_cases hc : c - 1 ≤ 0
          · rw [if_pos hc]
            exact removeTag_TagInv h g
          · rw [if_neg hc]
            exact setTag_TagInv h (by omega) g
  · intro tm g c h hl
    exact tagLookup_pos h hl
  · intro tm g c hg hl hc
    rw [task_finished_callback, if_neg hg, hl]
    dsimp only
    rw [if_pos (by omega : c - 1 ≤ 0)]
    refine ⟨rfl, ?_, rfl⟩
    exact tagLookup_removeTag_self _ _
  · intro tm g c hg hl hc
    rw [task_finished_callback, if_neg hg, hl]
    dsimp only
    rw [if_neg (by omega : ¬(c - 1 ≤ 0))]
    exact ⟨tagLookup_setTag_self hl (c - 1), rfl⟩
  · intro tm g hl
    rw [task_finished_callback]
    by_cases hg : g = ""
    · rw [if_pos hg]
    · rw [if_neg hg, hl]

/-- Witness for C5: decrement-to-zero at a concrete one-entry map removes
the entry and wakes exactly once. -/
theorem tag_count_invariant_witness :
    (task_finished_callback
        { initTM with active_tasks_by_tag := [("x", 1)] }
        (some "x")).active_tasks_by_tag
      = removeTag [("x", 1)] "x" ∧
    tagLookup (task_finished_callback
        { initTM with active_tasks_by_tag := [("x", 1)] }
        (some "x")).active_tasks_by_tag "x" = none ∧
    (task_finished_callback
        { initTM with active_tasks_by_tag := [("x", 1)] }
        (some "x")).wakes
      = { initTM with active_tasks_by_tag := [("x", 1)] }.wakes + 1 :=
  tag_count_invariant.2.2.2.1 _ "x" 1 (by decide) (by decide) (by decide)

/-- C6: `submit_task` returns a null handle exactly when a shutdown is in
progress, in which case the state (in particular every tag count) is
untouched; when not shutting down, a submission under a truthy tag
increments that tag's active count (creating the entry if absent) and
appends the runnable to the scheduled work. -/
theorem submit_task_rejects_iff
    (tm : ThreadManager) (i : ℕ) (r : Bool) (tag : Option String)
    (cb : Option CB) :
    (((submit_task tm i r tag cb).2 = none) ↔ tm.is_shutting_down = true) ∧
    (tm.is_shutting_down = true → (submit_task tm i r tag cb).1 = tm) ∧
    (tm.is_shutting_down = false → ∀ g : String, tag = some g → g ≠ "" →
      tagLookup ((submit_task tm i r tag cb).1).active_tasks_by_tag g
        = some ((tagLookup tm.active_tasks_by_tag g).getD 0 + 1) ∧
      ((submit_task tm i r tag cb).1).pending
        = tm.pending ++ [⟨i, tag, r, some (cb.getD CB.poolDefault)⟩]) := by
  by_cases hs : tm.is_shutting_down = true
  · have e : submit_task tm i r tag cb = (tm, none) := by
      unfold submit_task
      rw [if_pos hs]
    rw [e]
    refine ⟨⟨fun _ => hs, fun _ => rfl⟩, fun _ => rfl, fun hc => ?_⟩
    rw [hc] at hs
    cases hs
  · refine ⟨⟨fun h2 => ?_, fun h2 => absurd h2 hs⟩, fun h2 => absurd h2 hs, ?_⟩
    · unfold submit_task at h2
      rw [if_neg hs] at h2
      cases h2
    · intro hf g htag hg
      subst htag
      unfold submit_task
      rw [if_neg hs]
      dsimp only
      rw [if_neg hg]
      exact ⟨tagLookup_incrTag_self _ _, rfl⟩

/-- Witness for C6: a tagged submission to a fresh manager creates the
tag entry with count 1 and schedules exactly the submitted runnable. -/
theorem submit_task_rejects_iff_witness :
    tagLookup ((submit_task initTM 5 false (some "x") none).1).active_tasks_by_tag
        "x" = some 1 ∧
    ((submit_task initTM 5 false (some "x") none).1).pending
        = [⟨5, some "x", false, some CB.poolDefault⟩] := by
  have h := (submit_task_rejects_iff initTM 5 false (some "x") none).2.2
    rfl "x" rfl (by decide)
  constructor
  · rw [h.1]
    decide
  · rw [h.2]
    decide

/-- C7: `taskRun` is total — a fault in the work function is caught and
logged (`workErrors`) and never propagates; the `on_finished` callback is
invoked exactly once afterwards regardless of the work's outcome (for the
pool's default callback this performs exactly the tag bookkeeping of
`task_finished_callback`, so counts stay consistent); a fault raised
inside a custom `on_finished` is caught and logged independently
(`cbErrors`) without affecting the work's own record. -/
theorem taskRun_fault_isolation
    (tm : ThreadManager) (t : TaskRunnable) (c0 : CB) (hcb : t.cb = some c0) :
    ((taskRun tm t).onFinishedLog = tm.onFinishedLog ++ [t.id]) ∧
    (t.raises = true →
      (taskRun tm t).workErrors = tm.workErrors ++ [t.id] ∧
      (taskRun tm t).executedLog = tm.executedLog) ∧
    (t.raises = false →
      (taskRun tm t).executedLog = tm.executedLog ++ [t.id] ∧
      (taskRun tm t).workErrors = tm.workErrors) ∧
    (c0 = CB.poolDefault →
      (taskRun tm t).cbErrors = tm.cbErrors ∧
      (taskRun tm t).active_tasks_by_tag
        = (task_finished_callback tm t.tag).active_tasks_by_tag) ∧
    (∀ rc : Bool, c0 = CB.custom rc →
      (taskRun tm t).active_tasks_by_tag = tm.active_tasks_by_tag ∧
      (taskRun tm t).cbErrors
        = (if rc then tm.cbErrors ++ [t.id] else tm.cbErrors)) := by
  rcases t with ⟨i, tag, raises, cb⟩
  dsimp only at hcb
  subst hcb
  rcases c0 with _ | r
  · -- pool default callback
    cases raises
    · obtain ⟨a, w, hs⟩ := task_finished_callback_shape
        { tm with
          executedLog := tm.executedLog ++ [i]
          onFinishedLog := tm.onFinishedLog ++ [i] } tag
      have hrun : taskRun tm ⟨i, tag, false, some CB.poolDefault⟩
          = { { tm with
                executedLog := tm.executedLog ++ [i]
                onFinishedLog := tm.onFinishedLog ++ [i] } with
              active_tasks_by_tag := a, wakes := w } := hs
      have ha : (task_finished_callback
          { tm with
            executedLog := tm.executedLog ++ [i]
            onFinishedLog := tm.onFinishedLog ++ [i] } tag).active_tasks_by_tag
          = a := by rw [hs]
      refine ⟨?_, ?_, ?_, ?_, ?_⟩
      · rw [hrun]
      · intro hx
        cases hx
      · intro _
        rw [hrun]
        exact ⟨rfl, rfl⟩
      · intro _
        refine ⟨by rw [hrun], ?_⟩
        rw [hrun]
        dsimp only
        rw [← ha]
        exact task_finished_callback_active_congr _ _ _ rfl
      · intro rc hx
        cases hx
    · obtain ⟨a, w, hs⟩ := task_finished_callback_shape
        { tm with
          workErrors := tm.workErrors ++ [i]
          onFinishedLog := tm.onFinishedLog ++ [i] } tag
      have hrun : taskRun tm ⟨i, tag, true, some CB.poolDefault⟩
          = { { tm with
                workErrors := tm.workErrors ++ [i]
                onFinishedLog := tm.onFinishedLog ++ [i] } with
              active_tasks_by_tag := a, wakes := w } := hs
      have ha : (task_finished_callback
          { tm with
            workErrors := tm.workErrors ++ [i]
            onFinishedLog := tm.onFinishedLog ++ [i] } tag).active_tasks_by_tag
          = a := by rw [hs]
      refine ⟨?_, ?_, ?_, ?_, ?_⟩
      · rw [hrun]
      · intro _
        rw [hrun]
        exact ⟨rfl, rfl⟩
      · intro hx
        cases hx
      · intro _
        refine ⟨by rw [hrun], ?_⟩
        rw [hrun]
        dsimp only
        rw [← ha]
        exact task_finished_callback_active_congr _ _ _ rfl
      · intro rc hx
        cases hx
  · -- custom callback
    cases raises <;> cases r
    · refine ⟨rfl, ?_, ?_, ?_, ?_⟩
      · intro hx; cases hx
      · intro _; exact ⟨rfl, rfl⟩
      · intro hx; cases hx
      · intro rc hx
        injection hx with he
        subst he
        exact ⟨rfl, rfl⟩
    · refine ⟨rfl, ?_, ?_, ?_, ?_⟩
      · intro hx; cases hx
      · intro _; exact ⟨rfl, rfl⟩
      · intro hx; cases hx
      · intro rc hx
        injection hx with he
        subst he
        exact ⟨rfl, rfl⟩
    · refine ⟨rfl, ?_, ?_, ?_, ?_⟩
      · intro _; exact ⟨rfl, rfl⟩
      · intro hx; cases hx
      · intro hx; cases hx
      · intro rc hx
        injection hx with he
        subst he
        exact ⟨rfl, rfl⟩
    · refine ⟨rfl, ?_, ?_, ?_, ?_⟩
      · intro _; exact ⟨rfl, rfl⟩
      · intro hx; cases hx
      · intro hx; cases hx
      · intro rc hx
        injection hx with he
        subst he
        exact ⟨rfl, rfl⟩

/-- Witness for C7: a raising work function under a raising custom
callback still gets its callback invoked once, with both faults logged. -/
theorem taskRun_fault_isolation_witness :
    (taskRun initTM ⟨3, some "x", true, some (CB.custom true)⟩).onFinishedLog
        = initTM.onFinishedLog ++ [3] ∧
    (taskRun initTM ⟨3, some "x", true, some (CB.custom true)⟩).workErrors
        = initTM.workErrors ++ [3] ∧
    (taskRun initTM ⟨3, some "x", true, some (CB.custom true)⟩).cbErrors
        = initTM.cbErrors ++ [3] := by
  have h := taskRun_fault_isolation initTM
    ⟨3, some "x", true, some (CB.custom true)⟩ (CB.custom true) rfl
  refine ⟨h.1, (h.2.1 rfl).1, ?_⟩
  have h2 := (h.2.2.2.2 true rfl).2
  simpa using h2

/-- C10: submitting with a tag and a caller-supplied callback increments
the tag's count at submission, but the returned runnable carries the
supplied callback in place of (not wrapping) the pool's bookkeeping
callback, so running the task leaves the tag map untouched — the entry
survives and a `wait_for_tagged_tasks` on that tag remains blocked.
(`CB.custom` models a caller callback that does not itself invoke
`task_finished_callback`.) -/
theorem custom_callback_skips_bookkeeping
    (tm : ThreadManager) (i : ℕ) (r rcb : Bool) (g : String)
    (hshut : tm.is_shutting_down = false) (hg : g ≠ "") :
    ((submit_task tm i r (some g) (some (CB.custom rcb))).2
        = some ⟨i, some g, r, some (CB.custom rcb)⟩) ∧
    (tagLookup ((submit_task tm i r (some g)
          (some (CB.custom rcb))).1).active_tasks_by_tag g
        = some ((tagLookup tm.active_tasks_by_tag g).getD 0 + 1)) ∧
    ((taskRun ((submit_task tm i r (some g) (some (CB.custom rcb))).1)
          ⟨i, some g, r, some (CB.custom rcb)⟩).active_tasks_by_tag
        = ((submit_task tm i r (some g)
            (some (CB.custom rcb))).1).active_tasks_by_tag) ∧
    (wait_for_tagged_tasks_blocked
        (taskRun ((submit_task tm i r (some g) (some (CB.custom rcb))).1)
          ⟨i, some g, r, some (CB.custom rcb)⟩) g = true) := by
  have hns : ¬(tm.is_shutting_down = true) := by
    rw [hshut]
    exact Bool.false_ne_true
  have h2 : tagLookup ((submit_task tm i r (some g)
        (some (CB.custom rcb))).1).active_tasks_by_tag g
      = some ((tagLookup tm.active_tasks_by_tag g).getD 0 + 1) := by
    unfold submit_task
    rw [if_neg hns]
    dsimp only
    rw [if_neg hg]
    exact tagLookup_incrTag_self _ _
  have h3 : (taskRun ((submit_task tm i r (some g)
        (some (CB.custom rcb))).1)
        ⟨i, some g, r, some (CB.custom rcb)⟩).active_tasks_by_tag
      = ((submit_task tm i r (some g)
          (some (CB.custom rcb))).1).active_tasks_by_tag := by
    cases r <;> cases rcb <;> rfl
  refine ⟨?_, h2, h3, ?_⟩
  · unfold submit_task
    rw [if_neg hns]
    rfl
  · rw [wait_for_tagged_tasks_blocked, h3, h2]
    rfl

/-- Witness for C10 at a fresh manager: after the tagged task with a
custom callback has run, the wait guard for its tag is still blocked. -/
theorem custom_callback_skips_bookkeeping_witness :
    wait_for_tagged_tasks_blocked
      (taskRun ((submit_task initTM 1 false (some "x")
          (some (CB.custom false))).1)
        ⟨1, some "x", false, some (CB.custom false)⟩) "x" = true :=
  (custom_callback_skips_bookkeeping initTM 1 false false "x" rfl
    (by decide)).2.2.2

/-- A constant measurement environment: every text measures 100 px wide
at any size, every font is 10 px tall. -/
def envConst : Env := ⟨fun _ _ => 100, fun _ => 10⟩

/-- A window state whose main-content widget is absent and whose only
present section is the top bar (font size 7). -/
def uiNoMain : UIState :=
  { top := some ⟨7, "t", 50, true, none, none⟩
    status := none
    left := none
    right := none
    main := none
    initial_left_sidebar_width := none
    initial_right_sidebar_width := none
    cfgFontSize := 12
    cfgWindowWidth := 100
    windowWidth := 100 }

/-- C8 counterexample: with the main-content widget absent, the layout
pass does not abort — the top bar is still processed and font application
still happens (its font changes from 7 to the computed uniform size 12),
contradicting "no further section processing or font application is
performed in that pass". -/
theorem adjust_pass_main_absent_counterexample :
    uiNoMain.main = none ∧
    (adjust_font_and_widget_sizes envConst uiNoMain).main = none ∧
    uiNoMain.top = some ⟨7, "t", 50, true, none, none⟩ ∧
    (adjust_font_and_widget_sizes envConst uiNoMain).top
      = some ⟨12, "t", 50, true, none, some 12⟩ := by
  refine ⟨rfl, rfl, rfl, ?_⟩
  with_unfolding_all decide

/-- C8 (amended): if the main-content widget is absent, the main-content
step logs and returns null without raising, and the pass then continues
instead of aborting: the main slot stays absent, every other section is
still processed (the top slot keeps its presence), and the uniform
smallest-font application still runs, applying the minimum over the
remaining sections' computed sizes (main contributing null) to every
present section. -/
theorem adjust_font_and_widget_sizes_main_absent
    (env : Env) (ui : UIState) (hm : ui.main = none) :
    adjust_main_content_font_size env ui = (none, none) ∧
    (adjust_font_and_widget_sizes env ui).main = none ∧
    ((adjust_font_and_widget_sizes env ui).top.isSome = ui.top.isSome) ∧
    ∃ s : ℤ,
      s = smallest_font_size ui.cfgFontSize
        [(adjust_bar_height env ui
            ((ui.windowWidth : ℚ) / (ui.cfgWindowWidth : ℚ)) ui.top).2,
         (adjust_bar_height env ui
            ((ui.windowWidth : ℚ) / (ui.cfgWindowWidth : ℚ)) ui.status).2,
         (adjust_sidebar_width env ui
            ((ui.windowWidth : ℚ) / (ui.cfgWindowWidth : ℚ)) ui.left
            ui.initial_left_sidebar_width).2,
         (adjust_sidebar_width env ui
            ((ui.windowWidth : ℚ) / (ui.cfgWindowWidth : ℚ)) ui.right
            ui.initial_right_sidebar_width).2,
         none] ∧
      (∀ w, (adjust_font_and_widget_sizes env ui).top = some w →
        w.fontSize = s) ∧
      (∀ w, (adjust_font_and_widget_sizes env ui).status = some w →
        w.fontSize = s) ∧
      (∀ w, (adjust_font_and_widget_sizes env ui).left = some w →
        w.fontSize = s) ∧
      (∀ w, (adjust_font_and_widget_sizes env ui).right = some w →
        w.fontSize = s) := by
  have hmr : adjust_main_content_font_size env ui = (none, none) := by
    unfold adjust_main_content_font_size
    rw [hm]
  have hpass : adjust_font_and_widget_sizes env ui
      = apply_smallest_font_size
        { ui with
          top := (adjust_bar_height env ui
            ((ui.windowWidth : ℚ) / (ui.cfgWindowWidth : ℚ)) ui.top).1
          status := (adjust_bar_height env ui
            ((ui.windowWidth : ℚ) / (ui.cfgWindowWidth : ℚ)) ui.status).1
          left := (adjust_sidebar_width env ui
            ((ui.windowWidth : ℚ) / (ui.cfgWindowWidth : ℚ)) ui.left
            ui.initial_left_sidebar_width).1
          right := (adjust_sidebar_width env ui
            ((ui.windowWidth : ℚ) / (ui.cfgWindowWidth : ℚ)) ui.right
            ui.initial_right_sidebar_width).1
          main := none }
        [(adjust_bar_height env ui
            ((ui.windowWidth : ℚ) / (ui.cfgWindowWidth : ℚ)) ui.top).2,
         (adjust_bar_height env ui
            ((ui.windowWidth : ℚ) / (ui.cfgWindowWidth : ℚ)) ui.status).2,
         (adjust_sidebar_width env ui
            ((ui.windowWidth : ℚ) / (ui.cfgWindowWidth : ℚ)) ui.left
            ui.initial_left_sidebar_width).2,
         (adjust_sidebar_width env ui
            ((ui.windowWidth : ℚ) / (ui.cfgWindowWidth : ℚ)) ui.right
            ui.initial_right_sidebar_width).2,
         none] := by
    unfold adjust_font_and_widget_sizes
    dsimp only
    rw [hmr]
  refine ⟨hmr, ?_, ?_, ?_⟩
  · rw [hpass]
    rfl
  · rw [hpass]
    cases htop : ui.top with
    | none => rfl
    | some w => rfl
  · refine ⟨_, rfl, ?_, ?_, ?_, ?_⟩
    · rw [hpass]
      exact apply_font_size_to_widget_fontSize _ _
    · rw [hpass]
      exact apply_font_size_to_widget_fontSize _ _
    · rw [hpass]
      exact apply_font_size_to_widget_fontSize _ _
    · rw [hpass]
      exact apply_font_size_to_widget_fontSize _ _

/-- Witness for C8 (amended) at the concrete absent-main state. -/
theorem adjust_font_and_widget_sizes_main_absent_witness :
    adjust_main_content_font_size envConst uiNoMain = (none, none) ∧
    (adjust_font_and_widget_sizes envConst uiNoMain).main = none ∧
    ((adjust_font_and_widget_sizes envConst uiNoMain).top.isSome
      = uiNoMain.top.isSome) := by
  have h := adjust_font_and_widget_sizes_main_absent envConst uiNoMain rfl
  exact ⟨h.1, h.2.1, h.2.2.1⟩
